import Mathlib

/-!
Verification of the MSIX maker pipeline of this repository
(`src/msixMaker.ts`, the current `MakerMSIX` implementation).

The TypeScript source is shallowly embedded below: pure computations
become Lean functions over `String`/`Nat`/`List`, fallible steps return
`Except`, and the external-process orchestration of `MakerMSIX.make` is
modelled as a sequential pipeline that threads an explicit trace of the
external tools it spawns.  JavaScript-specific semantics that matter are
modelled explicitly:

* `x ?? y` (nullish coalescing) is `Option.getD`;
* `if (s)` on an optional string is truthiness: `undefined` and `""`
  are falsy (`truthyStr` below);
* `String.prototype.split` with a one-character string separator is
  `String.splitOn`;
* `Array.prototype.slice(0, n)` is `List.take n`;
* `String.prototype.replace` with a non-global regex rewrites only the
  first match.
-/

namespace MSIX

/-- JavaScript truthiness of an optional string: `undefined` (here `none`)
and the empty string are falsy, every other string is truthy. -/
def truthyStr (o : Option String) : Bool :=
  match o with
  | none => false
  | some s => !s.isEmpty

/-! ### JavaScript string primitives

The maker uses `split`, `toUpperCase`/`toLocaleLowerCase`, `endsWith`,
`slice` and `.replace`.  They are modelled over `String.data` so that
all of them evaluate inside the kernel. -/

/-- `String.prototype.split` with a one-character separator class, over
char lists.  JavaScript returns at least one (possibly empty) piece:
`"".split(".") = [""]`, `"a..b".split(".") = ["a","","b"]`. -/
def jsSplitAnyChars (p : Char → Bool) : List Char → List (List Char)
  | [] => [[]]
  | c :: rest =>
    let r := jsSplitAnyChars p rest
    if p c then [] :: r
    else
      match r with
      | h :: t => (c :: h) :: t
      | [] => [[c]]

/-- `String.prototype.split` where the separator is any character
satisfying `p`. -/
def jsSplitAny (p : Char → Bool) (s : String) : List String :=
  (jsSplitAnyChars p s.data).map String.mk

/-- `String.prototype.toUpperCase` (ASCII-adequate). -/
def jsToUpper (s : String) : String := String.mk (s.data.map Char.toUpper)

/-- `String.prototype.toLowerCase` / `toLocaleLowerCase`
(ASCII-adequate). -/
def jsToLower (s : String) : String := String.mk (s.data.map Char.toLower)

/-- `String.prototype.endsWith`. -/
def jsEndsWith (s suf : String) : Bool :=
  s.data.reverse.take suf.data.length == suf.data.reverse

/-- Codesign credential (`MSIXCodesignOptions`); only the fields the maker
itself reads are kept.  Presence of the whole object gates every signing
step. -/
structure CodesignOptions where
  certificateFile : Option String := none
  certificatePassword : Option String := none

/-- `MakerMSIXConfig` from `src/msixMaker.ts`. -/
structure MakerMSIXConfig where
  appIcon : String
  publisher : Option String := none
  internalAppID : Option String := none
  appDescription : Option String := none
  wallpaperIcon : Option String := none
  makeAppXPath : Option String := none
  makePriPath : Option String := none
  sigCheckPath : Option String := none
  codesign : Option CodesignOptions := none
  protocols : Option (List String) := none
  baseDownloadURL : Option String := none

/-- The slice of Electron Forge's `MakerOptions` that `MakerMSIX.make`
reads: `appName`, `targetArch`, `dir`, `makeDir` and
`packageJSON.version`. -/
structure MakerOptions where
  appName : String
  targetArch : String
  dir : String
  makeDir : String
  version : String

/-- `MSIXAppManifestMetadata` from `src/msixMaker.ts`. -/
structure MSIXAppManifestMetadata where
  appID : String
  appName : String
  appDescription : String
  publisher : String
  version : String
  executable : String
  architecture : String
  protocols : Option (List String) := none
  baseDownloadURL : Option String := none

/-! ## Version normalization (`makeManifestConfiguration`)

Source: `version.split(".").concat(["0","0","0","0"]).slice(0, 4).join(".")`. -/

/-- The maker's version normalization, embedded verbatim from
`makeManifestConfiguration`. -/
def manifestVersion (version : String) : String :=
  String.intercalate "."
    (((jsSplitAny (fun c => c == '.') version) ++ ["0", "0", "0", "0"]).take 4)

/-- Version normalization as the spec words it: split on `.`, right-pad
with zero components up to 4, then truncate to exactly 4 components.
Stated separately so the source algorithm can be proved to refine the
spec's description. -/
def manifestVersionSpec (v : String) : String :=
  let comps := jsSplitAny (fun c => c == '.') v
  let padded := comps ++ List.replicate (4 - comps.length) "0"
  String.intercalate "." (padded.take 4)

theorem take_four_append_zeros (l : List String) :
    (l ++ ["0", "0", "0", "0"]).take 4
      = (l ++ List.replicate (4 - l.length) "0").take 4 := by
  rcases l with _ | ⟨a, _ | ⟨b, _ | ⟨c, _ | ⟨d, rest⟩⟩⟩⟩ <;>
    simp [List.replicate, List.take]

/-! ## Application id derivation (`MakerMSIX.make`)

Source:
`this.config.internalAppID ?? options.appName.toUpperCase().replace(/[^A-Z]/, "").slice(0, 10)`.
The regex has no `g` flag, so `.replace` removes only the *first*
character outside `A`-`Z`. -/

/-- Drop the first character outside `A`-`Z` (JavaScript
`.replace(/[^A-Z]/, "")`, non-global). -/
def removeFirstNonAZ : List Char → List Char
  | [] => []
  | c :: rest => if 'A' ≤ c && c ≤ 'Z' then c :: removeFirstNonAZ rest else rest

/-- The application id as `MakerMSIX.make` computes it
(`internalAppID ?? appName.toUpperCase().replace(/[^A-Z]/, "").slice(0, 10)`). -/
def deriveAppID (cfg : MakerMSIXConfig) (appName : String) : String :=
  match cfg.internalAppID with
  | some explicit => explicit
  | none => (String.mk (removeFirstNonAZ (jsToUpper appName).data)).take 10

/-- Modelled from the spec: the application id is the name normalized to
uppercase alphabetic characters only (every non-`A`-`Z` character removed
after uppercasing), capped at 10 characters.  Kept separate from
`deriveAppID` so the two can be compared. -/
def specAppID (appName : String) : String :=
  (String.mk ((jsToUpper appName).data.filter (fun c => 'A' ≤ c && c ≤ 'Z'))).take 10

/-! ## Manifest synthesizer (`makeAppManifestXML`)

The source renders one template literal.  It is embedded below as a
concatenation of literal segments and the interpolated metadata fields,
in template order; the segmentation follows the interpolation points
(plus a few extra literal splits at attribute boundaries, used by the
substring proofs — the concatenated value is unchanged).  The source
wraps the whole template in a leading `"\n"` and a trailing `"\n\t"` and
then calls `.trim()`; since the body starts with `<` and ends with `>`,
`.trim()` removes exactly that leading and trailing whitespace, so the
trimmed form is embedded directly. -/

/-- `executable.split(/[/\\]/).pop()`: last path component of the
executable's package-relative path. -/
def lastPathComponent (s : String) : String :=
  ((jsSplitAny (fun c => c == '/' || c == '\\') s).getLast?).getD ""

/-- `publisher.startsWith("CN=") ? publisher : `CN=${publisher}`` — the
distinguished-name marker is prepended unless already present. -/
def cnPublisher (p : String) : String :=
  if p.startsWith "CN=" then p else "CN=" ++ p

/-- The fixed `windows.startupTask` / `windows.appExecutionAlias`
extension entries (the initial value of the source's `extensions`
template variable). -/
def baseExtensionsXML (executable appName : String) : String :=
  "\n        <desktop:Extension\n          Category=\"windows.startupTask\"\n          Executable=\""
  ++ executable
  ++ "\"\n          EntryPoint=\"Windows.FullTrustApplication\">\n          <desktop:StartupTask TaskId=\"SlackStartup\" Enabled=\"true\" DisplayName=\""
  ++ appName
  ++ "\" />\n        </desktop:Extension>\n        <uap3:Extension\n          Category=\"windows.appExecutionAlias\"\n          Executable=\""
  ++ executable
  ++ "\"\n          EntryPoint=\"Windows.FullTrustApplication\">\n          <uap3:AppExecutionAlias>\n            <desktop:ExecutionAlias Alias=\""
  ++ lastPathComponent executable
  ++ "\" />\n          </uap3:AppExecutionAlias>\n        </uap3:Extension>\n"

/-- One `windows.protocol` extension entry, appended per configured URI
scheme. -/
def protocolXML (protocol : String) : String :=
  "<uap3:Extension Category=\"windows.protocol\">\n                    <uap3:Protocol Name=\""
  ++ protocol
  ++ "\" Parameters=\"&quot;%1&quot;\">\n                        <uap:DisplayName>"
  ++ protocol
  ++ "</uap:DisplayName>\n                    </uap3:Protocol>\n                </uap3:Extension>\n"

/-- The source's `extensions` variable after the `if (protocols)` loop.
(`protocols` is an optional array; `undefined` skips the loop, and any
array — empty included — is truthy, so the fold over the list models both
cases.) -/
def extensionsXML (m : MSIXAppManifestMetadata) : String :=
  baseExtensionsXML m.executable m.appName
  ++ (match m.protocols with
      | some ps => String.join (ps.map protocolXML)
      | none => "")

def mseg1 : String :=
  "<?xml version=\"1.0\" encoding=\"utf-8\"?>\n<Package xmlns=\"http://schemas.microsoft.com/appx/manifest/foundation/windows10\"\n    xmlns:uap=\"http://schemas.microsoft.com/appx/manifest/uap/windows10\"\n    xmlns:uap3=\"http://schemas.microsoft.com/appx/manifest/uap/windows10/3\"\n    xmlns:uap10=\"http://schemas.microsoft.com/appx/manifest/uap/windows10/10\"\n\txmlns:desktop=\"http://schemas.microsoft.com/appx/manifest/desktop/windows10\"\n    xmlns:desktop2=\"http://schemas.microsoft.com/appx/manifest/desktop/windows10/2\"\n    xmlns:desktop7=\"http://schemas.microsoft.com/appx/manifest/desktop/windows10/7\"\n    xmlns:rescap=\"http://schemas.microsoft.com/appx/manifest/foundation/windows10/restrictedcapabilities\"\n    IgnorableNamespaces=\"uap uap3 uap10 desktop7 rescap\">\n    <Identity Name=\""

def mseg2 : String := "\" Publisher=\""

def mseg3 : String := "\" Version=\""

def mseg4 : String := "\" ProcessorArchitecture=\""

def mseg5 : String := "\" />\n    <Properties>\n        <DisplayName>"

def mseg6 : String := "</DisplayName>\n        <PublisherDisplayName>"

def mseg7 : String := "</PublisherDisplayName>\n        <Description>"

def mseg8 : String :=
  "</Description>\n        <Logo>assets\\StoreLogo.png</Logo>\n        <uap10:PackageIntegrity>\n            <uap10:Content Enforcement=\"on\" />\n        </uap10:PackageIntegrity>\n    </Properties>\n    <Resources>\n        <Resource Language=\"en-us\" />\n    </Resources>\n\t<Dependencies>\n\t\t<TargetDeviceFamily Name=\"Windows.Desktop\" MinVersion=\"10.0.17763.0\" MaxVersionTested=\"10.0.17763.0\" />\n\t</Dependencies>\n\t<Capabilities>\n\t\t<rescap:Capability Name=\"runFullTrust\" />\n\t\t<Capability Name=\"internetClient\" />\n\t</Capabilities>\n    <Applications>\n        <Application "

def mseg9 : String := " Executable=\""

def mseg10 : String :=
  "\"\n            EntryPoint=\"Windows.FullTrustApplication\">\n            <uap:VisualElements BackgroundColor=\"transparent\" DisplayName=\"Notion\"\n                Square150x150Logo=\""

def mseg11 : String := "\"\n                Square44x44Logo=\""

def mseg12 : String :=
  "\" Description=\"Notion\">\n                <uap:DefaultTile Wide310x150Logo=\""

def mseg13 : String := "\"\n                    Square310x310Logo=\""

def mseg14 : String := "\"\n                    Square71x71Logo=\""

def mseg15 : String :=
  "\" />\n            </uap:VisualElements>\n            <Extensions>\n                "

def mseg16 : String :=
  "\n            </Extensions>\n        </Application>\n    </Applications>\n\t<Extensions>\n\t\t<desktop2:Extension Category=\"windows.firewallRules\">\n\t\t\t<desktop2:FirewallRules Executable=\""

def mseg17 : String :=
  "\">\n\t\t\t\t<desktop2:Rule Direction=\"in\" IPProtocol=\"TCP\" Profile=\"all\"/>\n\t\t\t\t<desktop2:Rule Direction=\"out\" IPProtocol=\"TCP\" Profile=\"all\"/>\n\t\t\t</desktop2:FirewallRules>\n\t\t</desktop2:Extension>\n\t</Extensions>\n</Package>"

/-- `makeAppManifestXML`: pure function from `MSIXAppManifestMetadata`
to the manifest document (`baseDownloadURL` is the one metadata field it
never reads). -/
def makeAppManifestXML (m : MSIXAppManifestMetadata) : String :=
  mseg1 ++ m.publisher ++ mseg2 ++ cnPublisher m.publisher ++ mseg3 ++ m.version
  ++ mseg4 ++ m.architecture ++ mseg5 ++ m.appName ++ mseg6 ++ m.appName ++ mseg7
  ++ m.appDescription ++ mseg8 ++ "Id=\"" ++ m.appID ++ "\"" ++ mseg9
  ++ m.executable ++ mseg10 ++ "assets\\" ++ m.appID ++ "-150x150Logo.png"
  ++ mseg11 ++ "assets\\" ++ m.appID ++ "-44x44Logo.png" ++ mseg12 ++ "assets\\"
  ++ m.appID ++ "-310x150Logo.png" ++ mseg13 ++ "assets\\" ++ m.appID
  ++ "-310x310Logo.png" ++ mseg14 ++ "assets\\" ++ m.appID ++ "-71x71Logo.png"
  ++ mseg15 ++ extensionsXML m ++ mseg16 ++ m.executable ++ mseg17

/-! ## Claims C2 and C6 -/

/-- **C2.** Version normalization is a total, deterministic function of
the version string: it equals the spec's pad-then-truncate description on
every input, and maps `"1"` to `"1.0.0.0"`, `"1.2"` to `"1.2.0.0"`,
`"1.2.3.4.5"` to `"1.2.3.4"` and `"0.0.1"` to `"0.0.1.0"`. -/
theorem c2_version_normalization :
    (∀ v, manifestVersion v = manifestVersionSpec v)
    ∧ manifestVersion "1" = "1.0.0.0"
    ∧ manifestVersion "1.2" = "1.2.0.0"
    ∧ manifestVersion "1.2.3.4.5" = "1.2.3.4"
    ∧ manifestVersion "0.0.1" = "0.0.1.0" := by
  refine ⟨fun v => ?_, by decide, by decide, by decide, by decide⟩
  simp only [manifestVersion, manifestVersionSpec]
  exact congrArg (String.intercalate ".") (take_four_append_zeros _)

/-- **C6.** The claim says every non-`A`-`Z` character is removed from the
uppercased name.  The source's `.replace(/[^A-Z]/, "")` has no `g` flag
and removes only the first such character: on `appName = "My App 2!"`
(no `internalAppID` override) the code derives `"MYAPP 2!"`, while the
claimed normalization gives `"MYAPP"`. -/
theorem c6_appID_regex_not_global :
    deriveAppID { appIcon := "appicon.png" } "My App 2!" = "MYAPP 2!"
    ∧ specAppID "My App 2!" = "MYAPP"
    ∧ deriveAppID { appIcon := "appicon.png" } "My App 2!" ≠ specAppID "My App 2!" := by
  refine ⟨by decide, by decide, by decide⟩

/-! ## Claims C8 and C10 -/

/-- **C8.** The manifest synthesizer is deterministic: any two metadata
values agreeing on `appID`, `appName`, `appDescription`, `publisher`,
`version`, `executable`, `architecture` and `protocols` produce
byte-identical manifest documents (in particular the unused
`baseDownloadURL` field may differ). -/
theorem c8_manifest_deterministic (a b : MSIXAppManifestMetadata)
    (h1 : a.appID = b.appID) (h2 : a.appName = b.appName)
    (h3 : a.appDescription = b.appDescription) (h4 : a.publisher = b.publisher)
    (h5 : a.version = b.version) (h6 : a.executable = b.executable)
    (h7 : a.architecture = b.architecture) (h8 : a.protocols = b.protocols) :
    makeAppManifestXML a = makeAppManifestXML b := by
  cases a; cases b
  dsimp only at h1 h2 h3 h4 h5 h6 h7 h8
  subst h1 h2 h3 h4 h5 h6 h7 h8
  rfl

def metaA : MSIXAppManifestMetadata :=
  { appID := "DEMO", appName := "Demo", appDescription := "A demo app",
    publisher := "CN=Test", version := "2.1.0.0",
    executable := "Demo\\Demo.exe", architecture := "x64",
    protocols := some ["demo"], baseDownloadURL := none }

def metaB : MSIXAppManifestMetadata :=
  { metaA with baseDownloadURL := some "https://example.invalid/apps/" }

/-- Witness for C8 at two concrete metadata values (differing only in the
unused `baseDownloadURL` field). -/
theorem c8_manifest_deterministic_witness :
    makeAppManifestXML metaA = makeAppManifestXML metaB :=
  c8_manifest_deterministic metaA metaB rfl rfl rfl rfl rfl rfl rfl rfl

/-- **C10.** When `config.internalAppID` is set it is used verbatim as
the application id — no uppercasing, no character removal, no length cap
— and it appears unchanged in the `Application Id` attribute and in all
five icon asset base names of the generated manifest. -/
theorem c10_internalAppID_verbatim (cfg : MakerMSIXConfig)
    (appName s : String) (m : MSIXAppManifestMetadata)
    (hcfg : cfg.internalAppID = some s) (hm : m.appID = s) :
    deriveAppID cfg appName = s
    ∧ (∃ p q, makeAppManifestXML m = p ++ ("Id=\"" ++ s ++ "\"") ++ q)
    ∧ (∃ p q, makeAppManifestXML m = p ++ ("assets\\" ++ s ++ "-150x150Logo.png") ++ q)
    ∧ (∃ p q, makeAppManifestXML m = p ++ ("assets\\" ++ s ++ "-44x44Logo.png") ++ q)
    ∧ (∃ p q, makeAppManifestXML m = p ++ ("assets\\" ++ s ++ "-310x150Logo.png") ++ q)
    ∧ (∃ p q, makeAppManifestXML m = p ++ ("assets\\" ++ s ++ "-310x310Logo.png") ++ q)
    ∧ (∃ p q, makeAppManifestXML m = p ++ ("assets\\" ++ s ++ "-71x71Logo.png") ++ q) := by
  subst hm
  refine ⟨by simp [deriveAppID, hcfg], ?_, ?_, ?_, ?_, ?_, ?_⟩
  · exact ⟨mseg1 ++ m.publisher ++ mseg2 ++ cnPublisher m.publisher ++ mseg3
      ++ m.version ++ mseg4 ++ m.architecture ++ mseg5 ++ m.appName ++ mseg6
      ++ m.appName ++ mseg7 ++ m.appDescription ++ mseg8,
      mseg9 ++ m.executable ++ mseg10 ++ "assets\\" ++ m.appID
      ++ "-150x150Logo.png" ++ mseg11 ++ "assets\\" ++ m.appID
      ++ "-44x44Logo.png" ++ mseg12 ++ "assets\\" ++ m.appID
      ++ "-310x150Logo.png" ++ mseg13 ++ "assets\\" ++ m.appID
      ++ "-310x310Logo.png" ++ mseg14 ++ "assets\\" ++ m.appID
      ++ "-71x71Logo.png" ++ mseg15 ++ extensionsXML m ++ mseg16
      ++ m.executable ++ mseg17,
      by simp [makeAppManifestXML, String.append_assoc]⟩
  · exact ⟨mseg1 ++ m.publisher ++ mseg2 ++ cnPublisher m.publisher ++ mseg3
      ++ m.version ++ mseg4 ++ m.architecture ++ mseg5 ++ m.appName ++ mseg6
      ++ m.appName ++ mseg7 ++ m.appDescription ++ mseg8 ++ "Id=\"" ++ m.appID
      ++ "\"" ++ mseg9 ++ m.executable ++ mseg10,
      mseg11 ++ "assets\\" ++ m.appID ++ "-44x44Logo.png" ++ mseg12
      ++ "assets\\" ++ m.appID ++ "-310x150Logo.png" ++ mseg13 ++ "assets\\"
      ++ m.appID ++ "-310x310Logo.png" ++ mseg14 ++ "assets\\" ++ m.appID
      ++ "-71x71Logo.png" ++ mseg15 ++ extensionsXML m ++ mseg16
      ++ m.executable ++ mseg17,
      by simp [makeAppManifestXML, String.append_assoc]⟩
  · exact ⟨mseg1 ++ m.publisher ++ mseg2 ++ cnPublisher m.publisher ++ mseg3
      ++ m.version ++ mseg4 ++ m.architecture ++ mseg5 ++ m.appName ++ mseg6
      ++ m.appName ++ mseg7 ++ m.appDescription ++ mseg8 ++ "Id=\"" ++ m.appID
      ++ "\"" ++ mseg9 ++ m.executable ++ mseg10 ++ "assets\\" ++ m.appID
      ++ "-150x150Logo.png" ++ mseg11,
      mseg12 ++ "assets\\" ++ m.appID ++ "-310x150Logo.png" ++ mseg13
      ++ "assets\\" ++ m.appID ++ "-310x310Logo.png" ++ mseg14 ++ "assets\\"
      ++ m.appID ++ "-71x71Logo.png" ++ mseg15 ++ extensionsXML m ++ mseg16
      ++ m.executable ++ mseg17,
      by simp [makeAppManifestXML, String.append_assoc]⟩
  · exact ⟨mseg1 ++ m.publisher ++ mseg2 ++ cnPublisher m.publisher ++ mseg3
      ++ m.version ++ mseg4 ++ m.architecture ++ mseg5 ++ m.appName ++ mseg6
      ++ m.appName ++ mseg7 ++ m.appDescription ++ mseg8 ++ "Id=\"" ++ m.appID
      ++ "\"" ++ mseg9 ++ m.executable ++ mseg10 ++ "assets\\" ++ m.appID
      ++ "-150x150Logo.png" ++ mseg11 ++ "assets\\" ++ m.appID
      ++ "-44x44Logo.png" ++ mseg12,
      mseg13 ++ "assets\\" ++ m.appID ++ "-310x310Logo.png" ++ mseg14
      ++ "assets\\" ++ m.appID ++ "-71x71Logo.png" ++ mseg15
      ++ extensionsXML m ++ mseg16 ++ m.executable ++ mseg17,
      by simp [makeAppManifestXML, String.append_assoc]⟩
  · exact ⟨mseg1 ++ m.publisher ++ mseg2 ++ cnPublisher m.publisher ++ mseg3
      ++ m.version ++ mseg4 ++ m.architecture ++ mseg5 ++ m.appName ++ mseg6
      ++ m.appName ++ mseg7 ++ m.appDescription ++ mseg8 ++ "Id=\"" ++ m.appID
      ++ "\"" ++ mseg9 ++ m.executable ++ mseg10 ++ "assets\\" ++ m.appID
      ++ "-150x150Logo.png" ++ mseg11 ++ "assets\\" ++ m.appID
      ++ "-44x44Logo.png" ++ mseg12 ++ "assets\\" ++ m.appID
      ++ "-310x150Logo.png" ++ mseg13,
      mseg14 ++ "assets\\" ++ m.appID ++ "-71x71Logo.png" ++ mseg15
      ++ extensionsXML m ++ mseg16 ++ m.executable ++ mseg17,
      by simp [makeAppManifestXML, String.append_assoc]⟩
  · exact ⟨mseg1 ++ m.publisher ++ mseg2 ++ cnPublisher m.publisher ++ mseg3
      ++ m.version ++ mseg4 ++ m.architecture ++ mseg5 ++ m.appName ++ mseg6
      ++ m.appName ++ mseg7 ++ m.appDescription ++ mseg8 ++ "Id=\"" ++ m.appID
      ++ "\"" ++ mseg9 ++ m.executable ++ mseg10 ++ "assets\\" ++ m.appID
      ++ "-150x150Logo.png" ++ mseg11 ++ "assets\\" ++ m.appID
      ++ "-44x44Logo.png" ++ mseg12 ++ "assets\\" ++ m.appID
      ++ "-310x150Logo.png" ++ mseg13 ++ "assets\\" ++ m.appID
      ++ "-310x310Logo.png" ++ mseg14,
      mseg15 ++ extensionsXML m ++ mseg16 ++ m.executable ++ mseg17,
      by simp [makeAppManifestXML, String.append_assoc]⟩

def cfgExplicitID : MakerMSIXConfig :=
  { appIcon := "appicon.png", internalAppID := some "my-app 1!x" }

def metaExplicitID : MSIXAppManifestMetadata :=
  { metaA with appID := "my-app 1!x" }

/-- Witness for C10 at a concrete override that uppercasing, character
removal or the 10-character cap would each have altered. -/
theorem c10_internalAppID_verbatim_witness :
    deriveAppID cfgExplicitID "Some Totally Different Name" = "my-app 1!x"
    ∧ (∃ p q, makeAppManifestXML metaExplicitID
        = p ++ ("Id=\"" ++ "my-app 1!x" ++ "\"") ++ q)
    ∧ (∃ p q, makeAppManifestXML metaExplicitID
        = p ++ ("assets\\" ++ "my-app 1!x" ++ "-150x150Logo.png") ++ q)
    ∧ (∃ p q, makeAppManifestXML metaExplicitID
        = p ++ ("assets\\" ++ "my-app 1!x" ++ "-44x44Logo.png") ++ q)
    ∧ (∃ p q, makeAppManifestXML metaExplicitID
        = p ++ ("assets\\" ++ "my-app 1!x" ++ "-310x150Logo.png") ++ q)
    ∧ (∃ p q, makeAppManifestXML metaExplicitID
        = p ++ ("assets\\" ++ "my-app 1!x" ++ "-310x310Logo.png") ++ q)
    ∧ (∃ p q, makeAppManifestXML metaExplicitID
        = p ++ ("assets\\" ++ "my-app 1!x" ++ "-71x71Logo.png") ++ q) :=
  c10_internalAppID_verbatim cfgExplicitID "Some Totally Different Name"
    "my-app 1!x" metaExplicitID rfl rfl

/-! ## Icon asset generator (`makeAppXImages`)

`REQUIRED_APPX_DIMENSIONS × REQUIRED_APPX_SCALES` drives a double loop
(`for scale ...: for dimensions ...`).  Each iteration renders one file
with Sharp; when `scale === 100` the rendered file is additionally
copied (`fs.copyFile`) to an unscaled alias and both are registered in
the returned file mapping.

The pixel outcome of one Sharp invocation is modelled by
`IconContent`: the source images used and the target box.  In the
source the plain-policy box is
`Math.trunc(w * scaleMultiplier)` with `scaleMultiplier = scale / 100.0`;
for every pair in the required table `w * scale / 100` is an exact dyadic
rational in double precision (`scale/100 ∈ {1, 1.25, 1.5, 2, 4}`), so
`Math.trunc` agrees with natural-number division `w * scale / 100`
used here.  The banner branch resizes the wallpaper to the *unscaled*
`(w, h)` box — `scaleMultiplier` is not applied there. -/

structure ImageDimensions where
  h : Nat
  w : Nat
  specialName : Option String := none
deriving DecidableEq

def REQUIRED_APPX_DIMENSIONS : List ImageDimensions :=
  [{ w := 150, h := 150 }, { w := 44, h := 44 }, { w := 310, h := 150 },
   { w := 310, h := 310 }, { w := 71, h := 71 },
   { w := 50, h := 50, specialName := some "StoreLogo" }]

def REQUIRED_APPX_SCALES : List Nat := [100, 125, 150, 200, 400]

/-- `(h >= 300 || w >= 300) && config.wallpaperIcon`: the banner policy
applies when a target dimension reaches 300 and a wallpaper image is
configured (JS truthiness on the optional string). -/
def bannerApplies (cfg : MakerMSIXConfig) (d : ImageDimensions) : Bool :=
  (decide (300 ≤ d.h) || decide (300 ≤ d.w)) && truthyStr cfg.wallpaperIcon

/-- Content fingerprint of one rendered icon file: the deterministic
Sharp pipeline is a function of the source image(s) and the target box,
so byte-identity of outputs is equality of fingerprints. -/
structure IconContent where
  appIcon : String
  wallpaper : Option String
  width : Nat
  height : Nat
  banner : Bool
deriving DecidableEq

/-- Pixel dimensions and sources of the file rendered for `(d, scale)`,
following the two branches of `makeAppXImages`. -/
def renderContent (cfg : MakerMSIXConfig) (d : ImageDimensions) (scale : Nat) :
    IconContent :=
  if bannerApplies cfg d then
    { appIcon := cfg.appIcon, wallpaper := cfg.wallpaperIcon,
      width := d.w, height := d.h, banner := true }
  else
    { appIcon := cfg.appIcon, wallpaper := none,
      width := d.w * scale / 100, height := d.h * scale / 100, banner := false }

/-- `dimensions.specialName ?? `${appID}-${w}x${h}Logo``. -/
def assetBaseName (appID : String) (d : ImageDimensions) : String :=
  match d.specialName with
  | some n => n
  | none => appID ++ "-" ++ toString d.w ++ "x" ++ toString d.h ++ "Logo"

/-- `path.join` on the win32 target platform. -/
def winJoin (a b : String) : String := a ++ "\\" ++ b

def imageNameNoScale (appID : String) (d : ImageDimensions) : String :=
  assetBaseName appID d ++ ".png"

def imageNameScale (appID : String) (d : ImageDimensions) (scale : Nat) : String :=
  assetBaseName appID d ++ ".scale-" ++ toString scale ++ ".png"

def manifestPathNoScale (appID : String) (d : ImageDimensions) : String :=
  winJoin "assets" (imageNameNoScale appID d)

def diskPathNoScale (assetPath appID : String) (d : ImageDimensions) : String :=
  winJoin assetPath (imageNameNoScale appID d)

def manifestPathScale (appID : String) (d : ImageDimensions) (scale : Nat) : String :=
  winJoin "assets" (imageNameScale appID d scale)

def diskPathScale (assetPath appID : String) (d : ImageDimensions) (scale : Nat) : String :=
  winJoin assetPath (imageNameScale appID d scale)

/-- One file written per `(d, scale)` iteration, plus the `fs.copyFile`
of the rendering to the unscaled alias when `scale === 100` (the copy
carries the same bytes, hence the same fingerprint). -/
inductive IconFile
  | scaledFile (d : ImageDimensions) (scale : Nat)
  | unscaledFile (d : ImageDimensions)
deriving DecidableEq

def iconWritesFor (cfg : MakerMSIXConfig) (d : ImageDimensions) (scale : Nat) :
    List (IconFile × IconContent) :=
  [(IconFile.scaledFile d scale, renderContent cfg d scale)]
  ++ (if scale = 100 then [(IconFile.unscaledFile d, renderContent cfg d scale)] else [])

/-- Mapping entries registered in one iteration, in source order: the
unscaled alias (only when `scale === 100`), then the scaled file. -/
def iconMappingFor (appID assetPath : String) (d : ImageDimensions) (scale : Nat) :
    List (String × String) :=
  (if scale = 100
   then [(manifestPathNoScale appID d, diskPathNoScale assetPath appID d)]
   else [])
  ++ [(manifestPathScale appID d scale, diskPathScale assetPath appID d scale)]

/-- All file writes of `makeAppXImages`, in loop order. -/
def makeAppXImagesWrites (cfg : MakerMSIXConfig) : List (IconFile × IconContent) :=
  (REQUIRED_APPX_SCALES.map (fun s =>
    (REQUIRED_APPX_DIMENSIONS.map (fun d => iconWritesFor cfg d s)).flatten)).flatten

/-- The file mapping returned by `makeAppXImages`, in insertion order. -/
def makeAppXImagesMapping (appID assetPath : String) : List (String × String) :=
  (REQUIRED_APPX_SCALES.map (fun s =>
    (REQUIRED_APPX_DIMENSIONS.map (fun d => iconMappingFor appID assetPath d s)).flatten)).flatten

/-! ## Claims C3 and C7 -/

def cfgPlain : MakerMSIXConfig := { appIcon := "appicon.png" }

def cfgWall : MakerMSIXConfig :=
  { appIcon := "appicon.png", wallpaperIcon := some "wallpaper.png" }

/-- Modelled from the spec: `round(x * scale/100)` — the claimed pixel
dimension formula. -/
def specRoundScaled (x scale : Nat) : Nat := (x * scale + 50) / 100

/-- **C3, counterexample.**  At dimension 71×71 and scale 125 the plain
policy renders an 88×88 box (`Math.trunc(88.75)`), not the claimed
`round(88.75) = 89`; and under the banner policy (310×310 with a
wallpaper configured) the output box is 310×310 for scale 400, not the
claimed `round(310 * 4) = 1240`. -/
theorem c3_icon_dimensions_counterexample :
    ((renderContent cfgPlain { w := 71, h := 71 } 125).width = 88
      ∧ specRoundScaled 71 125 = 89
      ∧ (renderContent cfgPlain { w := 71, h := 71 } 125).width
          ≠ specRoundScaled 71 125)
    ∧ ((renderContent cfgWall { w := 310, h := 310 } 400).width = 310
      ∧ specRoundScaled 310 400 = 1240
      ∧ (renderContent cfgWall { w := 310, h := 310 } 400).width
          ≠ specRoundScaled 310 400) := by
  decide

/-- **C3, amended.**  For every `(dimension, scale)` pair in the required
cross product, the rendered pixel box is
`trunc(width * scale/100) × trunc(height * scale/100)` under the plain
policy, while under the banner policy (a target dimension ≥ 300 with a
wallpaper configured) it is the unscaled `width × height` for every
scale. -/
theorem c3_icon_dimensions (cfg : MakerMSIXConfig) (d : ImageDimensions)
    (scale : Nat) (_hd : d ∈ REQUIRED_APPX_DIMENSIONS)
    (_hs : scale ∈ REQUIRED_APPX_SCALES) :
    ((renderContent cfg d scale).width, (renderContent cfg d scale).height)
      = if bannerApplies cfg d then (d.w, d.h)
        else (d.w * scale / 100, d.h * scale / 100) := by
  simp only [renderContent]
  split <;> rfl

/-- Witness for C3 (amended) at the 310×150 dimension and scale 200. -/
theorem c3_icon_dimensions_witness :
    ((renderContent cfgPlain { w := 310, h := 150 } 200).width,
      (renderContent cfgPlain { w := 310, h := 150 } 200).height)
      = if bannerApplies cfgPlain { w := 310, h := 150 } then (310, 150)
        else (620, 300) :=
  c3_icon_dimensions cfgPlain { w := 310, h := 150 } 200 (by decide) (by decide)

/-- **C7.** For every required dimension, the scale-100 rendering is
copied to an unscaled alias with the very same content fingerprint
(byte-identical), both the alias and the scale-100 file are registered
in the icon file mapping under their package-relative `assets` paths,
and every unscaled alias ever written carries the scale-100 content of a
required dimension — no other scale produces an alias. -/
theorem c7_scale100_alias (cfg : MakerMSIXConfig) (appID assetPath : String)
    (d : ImageDimensions) (hd : d ∈ REQUIRED_APPX_DIMENSIONS) :
    (IconFile.unscaledFile d, renderContent cfg d 100) ∈ makeAppXImagesWrites cfg
    ∧ (IconFile.scaledFile d 100, renderContent cfg d 100) ∈ makeAppXImagesWrites cfg
    ∧ (manifestPathNoScale appID d, diskPathNoScale assetPath appID d)
        ∈ makeAppXImagesMapping appID assetPath
    ∧ (manifestPathScale appID d 100, diskPathScale assetPath appID d 100)
        ∈ makeAppXImagesMapping appID assetPath
    ∧ (∀ d' c, (IconFile.unscaledFile d', c) ∈ makeAppXImagesWrites cfg →
        d' ∈ REQUIRED_APPX_DIMENSIONS ∧ c = renderContent cfg d' 100) := by
  refine ⟨?_, ?_, ?_, ?_, ?_⟩
  · fin_cases hd <;>
      simp [makeAppXImagesWrites, iconWritesFor, REQUIRED_APPX_SCALES,
        REQUIRED_APPX_DIMENSIONS]
  · fin_cases hd <;>
      simp [makeAppXImagesWrites, iconWritesFor, REQUIRED_APPX_SCALES,
        REQUIRED_APPX_DIMENSIONS]
  · fin_cases hd <;>
      simp [makeAppXImagesMapping, iconMappingFor, REQUIRED_APPX_SCALES,
        REQUIRED_APPX_DIMENSIONS]
  · fin_cases hd <;>
      simp [makeAppXImagesMapping, iconMappingFor, REQUIRED_APPX_SCALES,
        REQUIRED_APPX_DIMENSIONS]
  · intro d' c hmem
    simp [makeAppXImagesWrites, iconWritesFor, REQUIRED_APPX_SCALES,
      REQUIRED_APPX_DIMENSIONS] at hmem
    rcases hmem with ⟨rfl, rfl⟩ | ⟨rfl, rfl⟩ | ⟨rfl, rfl⟩ | ⟨rfl, rfl⟩
      | ⟨rfl, rfl⟩ | ⟨rfl, rfl⟩ <;> exact ⟨by decide, rfl⟩

/-- Witness for C7 at the reserved 50×50 StoreLogo dimension. -/
theorem c7_scale100_alias_witness :
    (IconFile.unscaledFile { w := 50, h := 50, specialName := some "StoreLogo" },
        renderContent cfgPlain { w := 50, h := 50, specialName := some "StoreLogo" } 100)
      ∈ makeAppXImagesWrites cfgPlain
    ∧ (IconFile.scaledFile { w := 50, h := 50, specialName := some "StoreLogo" } 100,
        renderContent cfgPlain { w := 50, h := 50, specialName := some "StoreLogo" } 100)
      ∈ makeAppXImagesWrites cfgPlain
    ∧ (manifestPathNoScale "DEMO" { w := 50, h := 50, specialName := some "StoreLogo" },
        diskPathNoScale "C:\\make\\msix\\build\\assets" "DEMO"
          { w := 50, h := 50, specialName := some "StoreLogo" })
      ∈ makeAppXImagesMapping "DEMO" "C:\\make\\msix\\build\\assets"
    ∧ (manifestPathScale "DEMO" { w := 50, h := 50, specialName := some "StoreLogo" } 100,
        diskPathScale "C:\\make\\msix\\build\\assets" "DEMO"
          { w := 50, h := 50, specialName := some "StoreLogo" } 100)
      ∈ makeAppXImagesMapping "DEMO" "C:\\make\\msix\\build\\assets"
    ∧ (∀ d' c, (IconFile.unscaledFile d', c) ∈ makeAppXImagesWrites cfgPlain →
        d' ∈ REQUIRED_APPX_DIMENSIONS ∧ c = renderContent cfgPlain d' 100) :=
  c7_scale100_alias cfgPlain "DEMO" "C:\\make\\msix\\build\\assets"
    { w := 50, h := 50, specialName := some "StoreLogo" } (by decide)

/-! ## File-mapping merge and serializer
(`Object.assign` in `MakerMSIX.make`, `writeMappingFile`)

A JavaScript object literal used as a `FileMapping` is an insertion-
ordered association list; `Object.assign(target, src)` walks `src` in
insertion order and, for each key, overwrites the value in place when
the key is already present (keeping its original position) or appends
the pair otherwise.  `upsert`/`objAssign` model exactly that. -/

def upsert (m : List (String × String)) (k v : String) :
    List (String × String) :=
  if m.any (fun p => p.1 == k) then
    m.map (fun p => if p.1 == k then (k, v) else p)
  else m ++ [(k, v)]

def objAssign (a b : List (String × String)) : List (String × String) :=
  b.foldl (fun m p => upsert m p.1 p.2) a

/-- `Object.assign({}, appManifestMapping, installMapping,
imageAssetMapping, priFileMapping, contentTypeFileMapping)` — the merge
of the five stage mappings, in source order. -/
def mergeMappings (manifest install images pri contentType :
    List (String × String)) : List (String × String) :=
  objAssign (objAssign (objAssign (objAssign manifest install) images) pri)
    contentType

/-- `writeMappingFile`: the serialized `[Files]` document, CRLF-joined,
one quoted `"source" "package-relative"` pair per merged entry. -/
def mappingFileContents (fileMapping : List (String × String)) : String :=
  String.intercalate "\r\n"
    ("[Files]" :: fileMapping.map (fun kv => "\"" ++ kv.2 ++ "\" \"" ++ kv.1 ++ "\""))

theorem upsert_new (m : List (String × String)) (k v : String)
    (h : m.any (fun p => p.1 == k) = false) : upsert m k v = m ++ [(k, v)] := by
  simp [upsert, h]

theorem mem_upsert (m : List (String × String)) (k v : String)
    (kv : String × String) (h : kv ∈ upsert m k v) : kv ∈ m ∨ kv = (k, v) := by
  unfold upsert at h
  split at h
  · rcases List.mem_map.mp h with ⟨p, hp, hpe⟩
    by_cases hpk : (p.1 == k) = true
    · right
      rw [if_pos hpk] at hpe
      exact hpe.symm
    · left
      rw [if_neg hpk] at hpe
      exact hpe ▸ hp
  · rcases List.mem_append.mp h with h' | h'
    · exact Or.inl h'
    · exact Or.inr (by simpa using h')

theorem mem_objAssign (a b : List (String × String)) (kv : String × String)
    (h : kv ∈ objAssign a b) : kv ∈ a ∨ kv ∈ b := by
  induction b generalizing a with
  | nil => exact Or.inl h
  | cons p rest ih =>
    have := ih (upsert a p.1 p.2) (by simpa [objAssign] using h)
    rcases this with h' | h'
    · rcases mem_upsert a p.1 p.2 kv h' with h'' | h''
      · exact Or.inl h''
      · exact Or.inr (by simp [h''])
    · exact Or.inr (List.mem_cons_of_mem _ h')

theorem objAssign_disjoint (a b : List (String × String))
    (h : ((a ++ b).map Prod.fst).Nodup) : objAssign a b = a ++ b := by
  induction b generalizing a with
  | nil => simp [objAssign]
  | cons p rest ih =>
    have hnotin : a.any (fun q => q.1 == p.1) = false := by
      rw [List.any_eq_false]
      intro q hq
      simp only [beq_iff_eq]
      have h1 : q.1 ∈ a.map Prod.fst := List.mem_map_of_mem _ hq
      have h2 : p.1 ∈ (p :: rest).map Prod.fst := by simp
      intro hqe
      rw [List.map_append] at h
      exact (List.disjoint_of_nodup_append h) h1 (hqe ▸ h2)
    have hstep : objAssign a (p :: rest) = objAssign (a ++ [p]) rest := by
      simp [objAssign, upsert_new a p.1 p.2 hnotin]
    rw [hstep, ih (a ++ [p]) (by simpa using h)]
    simp

/-! ## Claim C5 -/

/-- **C5, counterexample.**  The merge does not surface collisions: with
`appName = "assets"` the inventory stage can register the package path
`assets\ASSETS-150x150Logo.png` (a staged file of that name), the icon
stage registers the same key for its generated 150×150 tile, and
`Object.assign` silently resolves the collision later-wins — the merged
mapping maps the key to the icon stage's source path and no error is
raised (the merge has no error outcome at all). -/
theorem c5_merge_counterexample :
    mergeMappings
      [("AppxManifest.xml", "C:\\make\\msix\\build\\AppxManifest.xml")]
      [("assets\\ASSETS-150x150Logo.png",
        "C:\\make\\msix\\build\\assets\\ASSETS-150x150Logo.png")]
      [("assets\\ASSETS-150x150Logo.png",
        "C:\\make\\msix\\build\\assets2\\ASSETS-150x150Logo.png")]
      [] []
      = [("AppxManifest.xml", "C:\\make\\msix\\build\\AppxManifest.xml"),
         ("assets\\ASSETS-150x150Logo.png",
          "C:\\make\\msix\\build\\assets2\\ASSETS-150x150Logo.png")]
    ∧ "C:\\make\\msix\\build\\assets\\ASSETS-150x150Logo.png"
        ≠ "C:\\make\\msix\\build\\assets2\\ASSETS-150x150Logo.png" := by
  constructor
  · rfl
  · decide

/-- **C5, amended.**  The merged mapping is built by later-wins
`Object.assign`; collisions are not detected.  When the five stage
mappings' keys are globally unique, the merge is exactly their
concatenation (every stage's entries survive unchanged), and — with or
without collisions — every source path in the merged mapping is a source
path registered by one of the five stages, so it exists on disk at
serialization time whenever each stage registered only on-disk paths. -/
theorem c5_merge_unique_keys (manifest install images pri contentType :
    List (String × String)) :
    (((manifest ++ install ++ images ++ pri ++ contentType).map Prod.fst).Nodup →
      mergeMappings manifest install images pri contentType
        = manifest ++ install ++ images ++ pri ++ contentType)
    ∧ (∀ kv ∈ mergeMappings manifest install images pri contentType,
        kv.2 ∈ (manifest ++ install ++ images ++ pri ++ contentType).map Prod.snd) := by
  constructor
  · intro h
    unfold mergeMappings
    have h1 : ((manifest ++ install).map Prod.fst).Nodup := by
      refine List.Nodup.sublist ?_ h
      refine List.Sublist.map _ ?_
      simp [List.append_assoc]
    have h2 : (((manifest ++ install) ++ images).map Prod.fst).Nodup := by
      refine List.Nodup.sublist ?_ h
      refine List.Sublist.map _ ?_
      simp [List.append_assoc]
    have h3 : ((((manifest ++ install) ++ images) ++ pri).map Prod.fst).Nodup := by
      refine List.Nodup.sublist ?_ h
      refine List.Sublist.map _ ?_
      simp [List.append_assoc]
    have h4 : (((((manifest ++ install) ++ images) ++ pri) ++ contentType).map
        Prod.fst).Nodup := by
      refine List.Nodup.sublist ?_ h
      refine List.Sublist.map _ ?_
      simp [List.append_assoc]
    rw [objAssign_disjoint _ _ h1, objAssign_disjoint _ _ h2,
      objAssign_disjoint _ _ h3, objAssign_disjoint _ _ h4]
  · intro kv hkv
    have step1 := mem_objAssign _ _ kv hkv
    rcases step1 with h' | h'
    · rcases mem_objAssign _ _ kv h' with h'' | h''
      · rcases mem_objAssign _ _ kv h'' with h3 | h3
        · rcases mem_objAssign _ _ kv h3 with h4 | h4
          · exact List.mem_map_of_mem Prod.snd (by simp [h4])
          · exact List.mem_map_of_mem Prod.snd (by simp [h4])
        · exact List.mem_map_of_mem Prod.snd (by simp [h3])
      · exact List.mem_map_of_mem Prod.snd (by simp [h''])
    · exact List.mem_map_of_mem Prod.snd (by simp [h'])

/-- Witness for C5 (amended) on concrete collision-free stage mappings
shaped like a standard run. -/
theorem c5_merge_unique_keys_witness :
    mergeMappings
      [("AppxManifest.xml", "C:\\make\\msix\\build\\AppxManifest.xml")]
      [("Demo\\Demo.exe", "C:\\make\\msix\\build\\Demo\\Demo.exe")]
      [("assets\\DEMO-150x150Logo.png",
        "C:\\make\\msix\\build\\assets\\DEMO-150x150Logo.png")]
      [("resources.pri", "C:\\make\\msix\\build\\resources.pri")]
      [("fileName", "C:\\make\\msix\\build\\[Content_Types].xml")]
      = [("AppxManifest.xml", "C:\\make\\msix\\build\\AppxManifest.xml"),
         ("Demo\\Demo.exe", "C:\\make\\msix\\build\\Demo\\Demo.exe"),
         ("assets\\DEMO-150x150Logo.png",
          "C:\\make\\msix\\build\\assets\\DEMO-150x150Logo.png"),
         ("resources.pri", "C:\\make\\msix\\build\\resources.pri"),
         ("fileName", "C:\\make\\msix\\build\\[Content_Types].xml")] := by
  have h := (c5_merge_unique_keys
    [("AppxManifest.xml", "C:\\make\\msix\\build\\AppxManifest.xml")]
    [("Demo\\Demo.exe", "C:\\make\\msix\\build\\Demo\\Demo.exe")]
    [("assets\\DEMO-150x150Logo.png",
      "C:\\make\\msix\\build\\assets\\DEMO-150x150Logo.png")]
    [("resources.pri", "C:\\make\\msix\\build\\resources.pri")]
    [("fileName", "C:\\make\\msix\\build\\[Content_Types].xml")]).1 (by decide)
  simpa using h

/-! ## External tool invocation (`run`) and publisher resolution
(`getPublisher`)

`run(executable, args, neverFail)` spawns a child process, drains and
logs its streams, and settles on exit: a nonzero exit code rejects
unless `neverFail` is set, in which case it only logs a warning and
resolves with the collected stdout.  The exit code and collected stdout
of one spawn are modelled by `ToolRun`. -/

structure ToolRun where
  exitCode : Int
  stdout : String

inductive MakeError
  | missingExecutable (rootPath : String)
  | publisherNothingSigned
  | publisherNotSigned (exe : String)
  | toolFailed (exitCode : Int)
deriving DecidableEq

/-- Settling behaviour of `run`: nonzero exit rejects unless
`neverFail`. -/
def runModel (r : ToolRun) (neverFail : Bool) : Except MakeError String :=
  if r.exitCode ≠ 0 ∧ neverFail = false then .error (.toolFailed r.exitCode)
  else .ok r.stdout

/-! ### The publisher pattern

`getPublisher` parses sigcheck's stdout with the JavaScript regex
`/\r\n[ \t]+Publisher:[ \t]+(?<publisher>.+?)\r\n/` and takes the
`publisher` capture of the first (leftmost) match.  The matcher below
implements that regex operationally: literal `\r\n`, greedy
(backtracking) `[ \t]+`, literal `Publisher:`, greedy `[ \t]+`, then the
lazy capture `.+?` — at least one character, `.` excluding the line
terminators `\n` and `\r` — up to a closing literal `\r\n`. -/

def isSpaceTab (c : Char) : Bool := c == ' ' || c == '\t'

def isDotChar (c : Char) : Bool := c != '\n' && c != '\r'

/-- Lazy continuation of `.+?\r\n` after at least one captured char:
stop at the earliest following `\r\n`. -/
def lazyCaptureAux (acc : List Char) : List Char → Option String
  | '\r' :: '\n' :: _ => some (String.mk acc.reverse)
  | c :: rest => if isDotChar c then lazyCaptureAux (c :: acc) rest else none
  | [] => none

/-- `.+?\r\n` with a lazy, nonempty capture. -/
def lazyCaptureCRLF : List Char → Option String
  | c :: rest => if isDotChar c then lazyCaptureAux [c] rest else none
  | [] => none

/-- Greedy `[ \t]*` before a continuation, with backtracking: prefer
consuming more whitespace, fall back to stopping earlier. -/
def wsStarGreedy (cont : List Char → Option String) : List Char → Option String
  | [] => cont []
  | c :: rest =>
    if isSpaceTab c then
      match wsStarGreedy cont rest with
      | some r => some r
      | none => cont (c :: rest)
    else cont (c :: rest)

/-- Greedy `[ \t]+` (at least one) before a continuation. -/
def wsPlusGreedy (cont : List Char → Option String) : List Char → Option String
  | c :: rest => if isSpaceTab c then wsStarGreedy cont rest else none
  | [] => none

/-- Attempt the pattern with the anchor `\r\n` already consumed. -/
def matchAfterCRLF (l : List Char) : Option String :=
  wsPlusGreedy
    (fun r =>
      if r.take 10 = "Publisher:".data then
        wsPlusGreedy lazyCaptureCRLF (r.drop 10)
      else none)
    l

/-- Attempt the pattern at the current position. -/
def matchPublisherAt : List Char → Option String
  | '\r' :: '\n' :: rest => matchAfterCRLF rest
  | _ => none

/-- Leftmost match of the publisher regex over the whole stdout
(`String.prototype.match` without `g`). -/
def matchPublisherScan : List Char → Option String
  | [] => none
  | c :: rest =>
    match matchPublisherAt (c :: rest) with
    | some r => some r
    | none => matchPublisherScan rest

/-- `getPublisher(installMapping, config)`: filter the mapping's on-disk
source paths (`Object.values`) for `.exe` suffixes (lowercased); with no
executable throw "nothing signed"; otherwise run sigcheck on the first
one in never-fail mode and parse the publisher from its stdout, throwing
"not signed" when no match is found.  `sig` gives the spawn outcome per
inspected file. -/
def getPublisherModel (installValues : List String) (sig : String → ToolRun) :
    Except MakeError String :=
  match installValues.filter (fun f => jsEndsWith (jsToLower f) ".exe") with
  | [] => .error .publisherNothingSigned
  | e :: _ =>
    match runModel (sig e) true with
    | .error err => .error err
    | .ok out =>
      match matchPublisherScan out.data with
      | some p => .ok p
      | none => .error (.publisherNotSigned e)

/-- The publisher step of `MakerMSIX.make`: an explicitly configured
(truthy) `config.publisher` is used unchanged, otherwise `getPublisher`
runs. -/
def resolvePublisherModel (cfg : MakerMSIXConfig) (installValues : List String)
    (sig : String → ToolRun) : Except MakeError String :=
  if truthyStr cfg.publisher then .ok (cfg.publisher.getD "")
  else getPublisherModel installValues sig

/-! ## Claim C4 -/

/-- **C4.** Publisher resolution: a configured publisher is returned
unchanged; otherwise the result is a fixed-pattern parse of the
signature-inspection tool's stdout on the *first* `.exe` source path of
the install mapping; the tool's exit code never affects the outcome
(never-hard-fail mode); and resolution succeeds exactly when a publisher
can be parsed — it throws precisely when the mapping has no executable
or no parseable publisher field exists. -/
theorem c4_publisher_resolution (cfg : MakerMSIXConfig)
    (vals : List String) (sig sig' : String → ToolRun)
    (hout : ∀ f, (sig f).stdout = (sig' f).stdout) :
    (resolvePublisherModel cfg vals sig = resolvePublisherModel cfg vals sig')
    ∧ (truthyStr cfg.publisher = true →
        resolvePublisherModel cfg vals sig = .ok (cfg.publisher.getD ""))
    ∧ (truthyStr cfg.publisher = false →
        ∀ e rest, vals.filter (fun f => jsEndsWith (jsToLower f) ".exe") = e :: rest →
          resolvePublisherModel cfg vals sig
            = match matchPublisherScan ((sig e).stdout).data with
              | some p => .ok p
              | none => .error (.publisherNotSigned e))
    ∧ (truthyStr cfg.publisher = false →
        vals.filter (fun f => jsEndsWith (jsToLower f) ".exe") = [] →
          resolvePublisherModel cfg vals sig = .error .publisherNothingSigned)
    ∧ (truthyStr cfg.publisher = false →
        ((∃ p, resolvePublisherModel cfg vals sig = .ok p) ↔
          (∃ e rest, vals.filter (fun f => jsEndsWith (jsToLower f) ".exe") = e :: rest
            ∧ matchPublisherScan ((sig e).stdout).data ≠ none))) := by
  refine ⟨?_, ?_, ?_, ?_, ?_⟩
  · unfold resolvePublisherModel getPublisherModel
    rcases hpub : truthyStr cfg.publisher
    · simp only [hpub, Bool.false_eq_true, if_false]
      rcases hexes : vals.filter (fun f => jsEndsWith (jsToLower f) ".exe") with
        _ | ⟨e, rest⟩
      · rfl
      · simp [runModel, hout e]
    · simp [hpub]
  · intro hpub
    simp [resolvePublisherModel, hpub]
  · intro hpub e rest hexes
    simp [resolvePublisherModel, hpub, getPublisherModel, hexes, runModel]
  · intro hpub hexes
    simp [resolvePublisherModel, hpub, getPublisherModel, hexes]
  · intro hpub
    rcases hexes : vals.filter (fun f => jsEndsWith (jsToLower f) ".exe") with
      _ | ⟨e, rest⟩
    · simp [resolvePublisherModel, getPublisherModel, hpub, hexes]
    · rcases hscan : matchPublisherScan ((sig e).stdout).data with _ | p <;>
        simp [resolvePublisherModel, getPublisherModel, hpub, hexes, runModel,
          hscan]

def sigOutSigned : String :=
  "\r\n\tVerified:\tSigned\r\n\tPublisher:\tExample Corp\r\n\tDescription:\tDemo\r\n"

/-- Witness for C4: with no configured publisher, one executable in the
mapping and a sigcheck stdout carrying a publisher line, resolution
succeeds with the parsed publisher even though the tool exited
nonzero, and is identical to the run where the tool exited zero. -/
theorem c4_publisher_resolution_witness :
    (resolvePublisherModel { appIcon := "appicon.png" }
        ["C:\\b\\Demo\\Demo.exe", "C:\\b\\Demo\\helper.dll"]
        (fun _ => { exitCode := 1, stdout := sigOutSigned })
      = resolvePublisherModel { appIcon := "appicon.png" }
        ["C:\\b\\Demo\\Demo.exe", "C:\\b\\Demo\\helper.dll"]
        (fun _ => { exitCode := 0, stdout := sigOutSigned }))
    ∧ resolvePublisherModel { appIcon := "appicon.png" }
        ["C:\\b\\Demo\\Demo.exe", "C:\\b\\Demo\\helper.dll"]
        (fun _ => { exitCode := 1, stdout := sigOutSigned })
      = .ok "Example Corp" := by
  constructor
  · exact (c4_publisher_resolution { appIcon := "appicon.png" }
      ["C:\\b\\Demo\\Demo.exe", "C:\\b\\Demo\\helper.dll"]
      (fun _ => { exitCode := 1, stdout := sigOutSigned })
      (fun _ => { exitCode := 0, stdout := sigOutSigned })
      (fun _ => rfl)).1
  · have h := (c4_publisher_resolution { appIcon := "appicon.png" }
      ["C:\\b\\Demo\\Demo.exe", "C:\\b\\Demo\\helper.dll"]
      (fun _ => { exitCode := 1, stdout := sigOutSigned })
      (fun _ => { exitCode := 1, stdout := sigOutSigned })
      (fun _ => rfl)).2.2.1 (by decide) "C:\\b\\Demo\\Demo.exe" [] (by decide)
    rw [h]
    rfl

/-! ## The pipeline (`MakerMSIX.make`)

`make` is embedded as a sequential pipeline over:

* the walk order of the staged tree, given as the list of
  package-relative file names the recursive walk yields (the walk itself
  is filesystem iteration; its output order is the model's input);
* an `ExtEnv` giving the outcome of each external tool spawn;
* an explicit trace of external processes spawned so far, in order.

Path concatenation uses the win32 separator via `winJoin`; `path.join`'s
separator normalization is immaterial to every claim below.  In-process
work (Sharp renderings, `fs` operations, manifest/content-type/mapping
document writes) spawns no external process and so contributes nothing
to the trace. -/

inductive ExtProc
  | signTool
  | sigCheck
  | makePri
  | makeAppX
deriving DecidableEq

/-- `codesign(config, path)`: when a credential is configured the
signing library runs (one signing-tool invocation); otherwise the stage
logs and does nothing. -/
def codesignTrace (cfg : MakerMSIXConfig) : List ExtProc :=
  match cfg.codesign with
  | some _ => [ExtProc.signTool]
  | none => []

/-- `path.join(options.makeDir, "msix/build/")`. -/
def scratchPathOf (o : MakerOptions) : String := winJoin o.makeDir "msix/build/"

/-- `path.join(options.makeDir, `${appName}-${targetArch}-msix/`)`. -/
def outPathOf (o : MakerOptions) : String :=
  winJoin o.makeDir (o.appName ++ "-" ++ o.targetArch ++ "-msix/")

/-- `path.join(outPath, `${appName}-${targetArch}-${version}.msix`)`. -/
def outMSIXOf (o : MakerOptions) (ver : String) : String :=
  winJoin (outPathOf o) (o.appName ++ "-" ++ o.targetArch ++ "-" ++ ver ++ ".msix")

/-- `path.join(outPath, `${appName}-${targetArch}-latest.msix`)`. -/
def latestMSIXOf (o : MakerOptions) : String :=
  winJoin (outPathOf o) (o.appName ++ "-" ++ o.targetArch ++ "-latest.msix")

/-- `inventoryInstallFilesForMapping(rootPath)`: walk the staged tree,
map each package-relative name to its on-disk path, remember the first
file whose lowercased name ends in `.exe`, and throw
`No executable file found in ${rootPath}` when there is none. -/
def inventoryModel (rootPath : String) (files : List String) :
    Except MakeError (String × List (String × String)) :=
  match files.find? (fun r => jsEndsWith (jsToLower r) ".exe") with
  | some exe => .ok (exe, files.map (fun r => (r, rootPath ++ r)))
  | none => .error (.missingExecutable rootPath)

/-- `makeManifestConfiguration` (the resolved publisher is passed
alongside the configuration, mirroring the source's
`{ ...this.config, publisher }` spread). -/
def makeManifestConfiguration (appID version executable publisher : String)
    (cfg : MakerMSIXConfig) (o : MakerOptions) : MSIXAppManifestMetadata :=
  { appID := appID, appName := o.appName,
    appDescription := cfg.appDescription.getD o.appName,
    executable := executable, architecture := o.targetArch,
    version := manifestVersion version,
    publisher := publisher, protocols := cfg.protocols,
    baseDownloadURL := cfg.baseDownloadURL }

/-- `path.join(outPath, `${appName}-${architecture}.AppInstaller`)`. -/
def appInstallerPathOf (outPath : String) (mc : MSIXAppManifestMetadata) : String :=
  winJoin outPath (mc.appName ++ "-" ++ mc.architecture ++ ".AppInstaller")

/-- `makeAppInstaller`: writes and returns the descriptor path only when
`baseDownloadURL` is truthy; otherwise returns `undefined`. -/
def makeAppInstallerModel (outPath : String) (mc : MSIXAppManifestMetadata) :
    Option String :=
  if truthyStr mc.baseDownloadURL then some (appInstallerPathOf outPath mc)
  else none

/-- Outcomes of the external tools of one run. -/
structure ExtEnv where
  sigCheck : String → ToolRun
  priCreateConfig : ToolRun
  priNew : ToolRun
  priFiles : List String
  makeAppX : ToolRun

/-- `makePRI`: two `makepri.exe` invocations (`createconfig`, `new`),
each fatal on nonzero exit, then the glob of produced `*.pri` files
keyed by basename. -/
def makePRIModel (env : ExtEnv) :
    Except MakeError (List (String × String)) × List ExtProc :=
  match runModel env.priCreateConfig false with
  | .error e => (.error e, [ExtProc.makePri])
  | .ok _ =>
    match runModel env.priNew false with
    | .error e => (.error e, [ExtProc.makePri, ExtProc.makePri])
    | .ok _ =>
      (.ok (env.priFiles.map (fun p => (lastPathComponent p, p))),
       [ExtProc.makePri, ExtProc.makePri])

/-- `writeContentTypeXML`: writes the static content-type document and
returns `{ fileName: outFileName }` — note the source uses the literal
property name `fileName` (not the computed `[fileName]`), embedded
faithfully here. -/
def contentTypeMappingModel (outPath : String) : List (String × String) :=
  [("fileName", winJoin outPath "[Content_Types].xml")]

/-- `makeMSIX`: one `makeappx.exe pack` invocation, fatal on nonzero
exit, followed by the optional file-mode codesign of the artifact. -/
def makeMSIXModel (cfg : MakerMSIXConfig) (env : ExtEnv) :
    Except MakeError Unit × List ExtProc :=
  match runModel env.makeAppX false with
  | .error e => (.error e, [ExtProc.makeAppX])
  | .ok _ => (.ok (), ExtProc.makeAppX :: codesignTrace cfg)

structure MakeResult where
  res : Except MakeError (List String)
  trace : List ExtProc

/-- `MakerMSIX.make`, stage for stage: derive the app id; stage and sign
the scratch tree (directory-mode codesign runs *before* inventory);
inventory the staged files (fatal when no executable exists); render the
icon set (in-process); resolve the publisher (spawning sigcheck only
when no truthy publisher is configured and an executable is present);
build the manifest configuration and documents; optionally produce the
installer descriptor; run the resource indexer; write the content-type
document; merge and serialize the file mapping; pack and sign; copy the
`latest` alias; and return the artifact list filtered of skipped
stages. -/
def makeModel (cfg : MakerMSIXConfig) (opts : MakerOptions)
    (stagedFiles : List String) (env : ExtEnv) : MakeResult :=
  let appID := deriveAppID cfg opts.appName
  let scratch := scratchPathOf opts
  let t0 := codesignTrace cfg
  match inventoryModel scratch stagedFiles with
  | .error e => { res := .error e, trace := t0 }
  | .ok (exe, installMapping) =>
    let imageMapping := makeAppXImagesMapping appID (winJoin scratch "assets")
    let pubT : List ExtProc :=
      if truthyStr cfg.publisher then []
      else
        match (installMapping.map Prod.snd).filter
            (fun f => jsEndsWith (jsToLower f) ".exe") with
        | [] => []
        | _ :: _ => [ExtProc.sigCheck]
    match resolvePublisherModel cfg (installMapping.map Prod.snd) env.sigCheck with
    | .error e => { res := .error e, trace := t0 ++ pubT }
    | .ok publisher =>
      let mc := makeManifestConfiguration appID opts.version exe publisher cfg opts
      let manifestMapping : List (String × String) :=
        [("AppxManifest.xml", winJoin scratch "AppxManifest.xml")]
      let installerOpt := makeAppInstallerModel (outPathOf opts) mc
      match makePRIModel env with
      | (.error e, t2) => { res := .error e, trace := t0 ++ pubT ++ t2 }
      | (.ok priMapping, t2) =>
        let merged := mergeMappings manifestMapping installMapping imageMapping
          priMapping (contentTypeMappingModel scratch)
        let _ := mappingFileContents merged
        match makeMSIXModel cfg env with
        | (.error e, t3) => { res := .error e, trace := t0 ++ pubT ++ t2 ++ t3 }
        | (.ok _, t3) =>
          { res := .ok (([some (outMSIXOf opts mc.version),
              some (latestMSIXOf opts), installerOpt]).filterMap id),
            trace := t0 ++ pubT ++ t2 ++ t3 }

/-! ## Claim C1 -/

def cfgSign : MakerMSIXConfig :=
  { appIcon := "appicon.png",
    codesign := some { certificateFile := some "c:\\certs\\cert.pfx" } }

def optsDemo : MakerOptions :=
  { appName := "Demo", targetArch := "x64", dir := "C:\\proj\\out",
    makeDir := "C:\\proj\\make", version := "1.2" }

def envQuiet : ExtEnv :=
  { sigCheck := fun _ => { exitCode := 0, stdout := "" },
    priCreateConfig := { exitCode := 0, stdout := "" },
    priNew := { exitCode := 0, stdout := "" },
    priFiles := [],
    makeAppX := { exitCode := 0, stdout := "" } }

/-- **C1, counterexample.**  With a signing credential configured and a
staged tree containing no `.exe` file, the run does fail with the
missing-executable error, but the signing tool has already run: the
stager signs the staged directory *before* inventory, so the trace is
not empty — contradicting the claim that no signing tool process runs in
such an invocation for every configuration. -/
theorem c1_missing_executable_counterexample :
    (makeModel cfgSign optsDemo ["Demo/README.md"] envQuiet).res
        = .error (.missingExecutable (scratchPathOf optsDemo))
    ∧ ExtProc.signTool ∈ (makeModel cfgSign optsDemo ["Demo/README.md"] envQuiet).trace := by
  constructor
  · rfl
  · decide

/-- **C1, amended.**  If the staged tree contains zero `.exe` files the
run fails with the missing-executable error, and no packaging tool,
resource indexer, or signature-inspection tool is ever spawned: the
trace up to the failure is exactly the stager's directory-signing
invocation — one signing-tool run when a credential is configured,
nothing at all otherwise. -/
theorem c1_missing_executable_aborts (cfg : MakerMSIXConfig)
    (opts : MakerOptions) (files : List String) (env : ExtEnv)
    (h : ∀ r ∈ files, jsEndsWith (jsToLower r) ".exe" = false) :
    (makeModel cfg opts files env).res
        = .error (.missingExecutable (scratchPathOf opts))
    ∧ (makeModel cfg opts files env).trace = codesignTrace cfg
    ∧ (∀ p ∈ (makeModel cfg opts files env).trace, p = ExtProc.signTool)
    ∧ (cfg.codesign = none → (makeModel cfg opts files env).trace = []) := by
  have hfind : files.find? (fun r => jsEndsWith (jsToLower r) ".exe") = none := by
    rw [List.find?_eq_none]
    intro x hx
    simp [h x hx]
  have hm : makeModel cfg opts files env
      = { res := .error (.missingExecutable (scratchPathOf opts)),
          trace := codesignTrace cfg } := by
    simp [makeModel, inventoryModel, hfind]
  refine ⟨by rw [hm], by rw [hm], ?_, ?_⟩
  · rw [hm]
    intro p hp
    unfold codesignTrace at hp
    rcases hc : cfg.codesign with _ | cred <;> rw [hc] at hp <;> simp at hp
    exact hp
  · intro hnone
    rw [hm]
    simp [codesignTrace, hnone]

/-- Witness for C1 (amended) at a concrete credential-free configuration
and executable-free staged tree: the run fails before any external
process at all. -/
theorem c1_missing_executable_aborts_witness :
    (∀ r ∈ ["Demo/README.md"], jsEndsWith (jsToLower r) ".exe" = false)
    ∧ ((makeModel cfgPlain optsDemo ["Demo/README.md"] envQuiet).res
          = .error (.missingExecutable (scratchPathOf optsDemo))
      ∧ (makeModel cfgPlain optsDemo ["Demo/README.md"] envQuiet).trace
          = codesignTrace cfgPlain
      ∧ (∀ p ∈ (makeModel cfgPlain optsDemo ["Demo/README.md"] envQuiet).trace,
          p = ExtProc.signTool)
      ∧ (cfgPlain.codesign = none →
          (makeModel cfgPlain optsDemo ["Demo/README.md"] envQuiet).trace = [])) :=
  ⟨by decide,
    c1_missing_executable_aborts cfgPlain optsDemo ["Demo/README.md"] envQuiet
      (by decide)⟩

/-! ## Claim C9 -/

theorem strExt (a b : String) (h : a.data = b.data) : a = b := by
  cases a; cases b; exact congrArg String.mk h

theorem strDataAppend (a b : String) : (a ++ b).data = a.data ++ b.data := by
  cases a; cases b; rfl

theorem append_ne_append_of_tail_ne (a b s t : String)
    (hlen : s.data.length = t.data.length) (hne : s.data ≠ t.data) :
    a ++ s ≠ b ++ t := by
  intro heq
  have hd := congrArg String.data heq
  rw [strDataAppend, strDataAppend] at hd
  exact hne (List.append_inj' hd hlen).2

/-- The installer-descriptor path of a run (spelt out in terms of the
options). -/
def installerArtifact (opts : MakerOptions) : String :=
  winJoin (outPathOf opts) (opts.appName ++ "-" ++ opts.targetArch ++ ".AppInstaller")

theorem installer_ne_outMSIX (opts : MakerOptions) (ver : String) :
    installerArtifact opts ≠ outMSIXOf opts ver := by
  have e1 : installerArtifact opts
      = (outPathOf opts ++ "\\" ++ (opts.appName ++ "-" ++ opts.targetArch
          ++ ".AppInst")) ++ "aller" := by
    rw [installerArtifact,
      show (".AppInstaller" : String) = ".AppInst" ++ "aller" from rfl]
    simp [winJoin, String.append_assoc]
  have e2 : outMSIXOf opts ver
      = (outPathOf opts ++ "\\" ++ (opts.appName ++ "-" ++ opts.targetArch
          ++ "-" ++ ver)) ++ ".msix" := by
    rw [outMSIXOf]
    simp [winJoin, String.append_assoc]
  rw [e1, e2]
  exact append_ne_append_of_tail_ne _ _ "aller" ".msix" (by decide) (by decide)

theorem installer_ne_latest (opts : MakerOptions) :
    installerArtifact opts ≠ latestMSIXOf opts := by
  have e1 : installerArtifact opts
      = (outPathOf opts ++ "\\" ++ (opts.appName ++ "-" ++ opts.targetArch
          ++ ".AppInst")) ++ "aller" := by
    rw [installerArtifact,
      show (".AppInstaller" : String) = ".AppInst" ++ "aller" from rfl]
    simp [winJoin, String.append_assoc]
  have e2 : latestMSIXOf opts
      = (outPathOf opts ++ "\\" ++ (opts.appName ++ "-" ++ opts.targetArch
          ++ "-latest")) ++ ".msix" := by
    rw [latestMSIXOf,
      show ("-latest.msix" : String) = "-latest" ++ ".msix" from rfl]
    simp [winJoin, String.append_assoc]
  rw [e1, e2]
  exact append_ne_append_of_tail_ne _ _ "aller" ".msix" (by decide) (by decide)

/-- **C9.** A successful run returns the ordered artifact list: the
versioned package artifact first, the `latest` alias second, and the
installer-descriptor path exactly when a (truthy) `baseDownloadURL` is
configured; skipped stages are filtered out and the list is never
empty. -/
theorem c9_artifact_list (cfg : MakerMSIXConfig) (opts : MakerOptions)
    (files : List String) (env : ExtEnv) (arts : List String)
    (h : (makeModel cfg opts files env).res = .ok arts) :
    arts = [outMSIXOf opts (manifestVersion opts.version), latestMSIXOf opts]
        ++ (if truthyStr cfg.baseDownloadURL then [installerArtifact opts] else [])
    ∧ arts ≠ []
    ∧ arts.head? = some (outMSIXOf opts (manifestVersion opts.version))
    ∧ arts[1]? = some (latestMSIXOf opts)
    ∧ (installerArtifact opts ∈ arts ↔ truthyStr cfg.baseDownloadURL = true) := by
  have harts : arts
      = [outMSIXOf opts (manifestVersion opts.version), latestMSIXOf opts]
        ++ (if truthyStr cfg.baseDownloadURL then [installerArtifact opts]
            else []) := by
    simp only [makeModel] at h
    split at h
    · simp at h
    · split at h
      · simp at h
      · split at h
        · simp at h
        · split at h
          · simp at h
          · simp only [MakeResult.mk.injEq] at h
            rcases htru : truthyStr cfg.baseDownloadURL <;>
              simp [makeAppInstallerModel, makeManifestConfiguration,
                appInstallerPathOf, installerArtifact, htru,
                List.filterMap] at h ⊢ <;> simp [← h]
  subst harts
  rcases htru : truthyStr cfg.baseDownloadURL <;> simp [htru]
  exact ⟨installer_ne_outMSIX opts (manifestVersion opts.version),
    installer_ne_latest opts⟩

def cfgFull : MakerMSIXConfig :=
  { appIcon := "appicon.png", publisher := some "CN=Test",
    baseDownloadURL := some "https://example.invalid/apps/" }

/-- Witness for C9 at a concrete successful run (publisher configured,
download URL configured, all tools exiting zero). -/
theorem c9_artifact_list_witness :
    ([outMSIXOf optsDemo (manifestVersion optsDemo.version),
        latestMSIXOf optsDemo, installerArtifact optsDemo] : List String)
      = [outMSIXOf optsDemo (manifestVersion optsDemo.version),
         latestMSIXOf optsDemo]
        ++ (if truthyStr cfgFull.baseDownloadURL
            then [installerArtifact optsDemo] else [])
    ∧ ([outMSIXOf optsDemo (manifestVersion optsDemo.version),
        latestMSIXOf optsDemo, installerArtifact optsDemo] : List String) ≠ []
    ∧ ([outMSIXOf optsDemo (manifestVersion optsDemo.version),
        latestMSIXOf optsDemo, installerArtifact optsDemo]).head?
        = some (outMSIXOf optsDemo (manifestVersion optsDemo.version))
    ∧ ([outMSIXOf optsDemo (manifestVersion optsDemo.version),
        latestMSIXOf optsDemo, installerArtifact optsDemo])[1]?
        = some (latestMSIXOf optsDemo)
    ∧ (installerArtifact optsDemo
        ∈ [outMSIXOf optsDemo (manifestVersion optsDemo.version),
           latestMSIXOf optsDemo, installerArtifact optsDemo]
        ↔ truthyStr cfgFull.baseDownloadURL = true) := by
  have h := c9_artifact_list cfgFull optsDemo ["Demo\\Demo.exe"] envQuiet
    [outMSIXOf optsDemo (manifestVersion optsDemo.version),
     latestMSIXOf optsDemo, installerArtifact optsDemo] rfl
  exact h

end MSIX
